import Mathlib

/-!
Shallow embedding of the order-reservation backend (FastAPI + SQLAlchemy +
Celery).  The embedded functions are `OrderService.create_order`,
`OrderService.create_order_optimistic` and `OrderService.get_orders` from
`app/services/order_service.py`, and the Celery task `process_order` from
`app/tasks/order_tasks.py`, together with the data model from
`app/models/product.py` and `app/models/order.py`.

Database rows become Lean structures (timestamps are omitted; the float
`price` is modelled exactly on `Rat`; the integer `stock` column is `Int`, so
non-negativity is a provable invariant, not a typing assumption).  Each
service call is a pure function from a database state to a database state
plus its returned value or raised exception, with the emitted cache
invalidations made explicit.  Concurrency is modelled by the serialized order
in which the row locks are granted: a sequence of calls is a fold, and the
one concurrency artifact the serialized path can still see, a constraint
violation raised at commit time, is an explicit fault flag.
-/

namespace Distributed

/-- Order status enumeration (`app/models/order.py`, class `OrderStatus`). -/
inductive OrderStatus where
  | pending
  | processing
  | completed
  | failed
deriving DecidableEq, Repr

/-- A row of the `products` table (`app/models/product.py`): name, positive
price, non-negative integer stock.  Timestamps are omitted. -/
structure Product where
  id : Nat
  name : String
  price : Rat
  stock : Int
deriving DecidableEq, Repr

/-- A row of the `orders` table (`app/models/order.py`).  Timestamps are
omitted. -/
structure Order where
  id : Nat
  product_id : Nat
  quantity : Nat
  total_price : Rat
  status : OrderStatus
deriving DecidableEq, Repr

/-- The durable database state: the two tables plus the autoincrement
counter supplying the next order id. -/
structure DB where
  products : List Product
  orders : List Order
  nextOrderId : Nat
deriving DecidableEq, Repr

/-- Input schema `OrderCreate` (`app/schemas/order.py`).  Pydantic enforces
`quantity ≥ 1` at the API boundary; theorems that need it hypothesize it. -/
structure OrderCreate where
  product_id : Nat
  quantity : Nat
deriving DecidableEq, Repr

/-- The exceptions `ProductNotFoundError` and `InsufficientStockError`
raised by `OrderService.create_order`. -/
inductive OrderError where
  | productNotFound
  | insufficientStock
deriving DecidableEq, Repr

/-- `db.query(Product).filter(Product.id == product_id).first()`. -/
def findProduct (db : DB) (pid : Nat) : Option Product :=
  db.products.find? (fun p => p.id == pid)

/-- `db.query(Order).filter(Order.id == order_id).first()`. -/
def findOrder (db : DB) (oid : Nat) : Option Order :=
  db.orders.find? (fun o => o.id == oid)

/-- Stock of product `pid` in `db` (0 when the product is absent); used to
state the stock-accounting invariants. -/
def stockOf (db : DB) (pid : Nat) : Int :=
  match findProduct db pid with
  | some p => p.stock
  | none => 0

/-- Decrement the stock of product `pid` by `q`: the ORM mutation
`product.stock -= quantity`, respectively the conditional
`UPDATE products SET stock = stock - :quantity WHERE id = :product_id`. -/
def decStock (ps : List Product) (pid : Nat) (q : Nat) : List Product :=
  ps.map (fun p => if p.id == pid then { p with stock := p.stock - (q : Int) } else p)

deriving instance DecidableEq for Except

/-- Result of one `create_order` call: the database after the call, the
returned order or raised error, and the list of product ids whose cache
entry was deleted (`cache_service.delete("product", str(product_id))`). -/
structure CreateOutcome where
  db : DB
  result : Except OrderError Order
  cacheInvalidations : List Nat
deriving DecidableEq, Repr

/-- `OrderService.create_order` (`app/services/order_service.py`,
lines 54-136), serialized semantics.  The product row is read under
`SELECT ... FOR UPDATE`, so the stock test and the decrement act on the same
value.  `commitFault` models the one failure the serialized path can still
observe: `db.commit()` raising `IntegrityError` (a stock constraint
violation caused by a concurrent mutation), which the except branch of
lines 128-132 rolls back and re-raises as `InsufficientStockError`. -/
def create_order (db : DB) (od : OrderCreate) (commitFault : Bool) : CreateOutcome :=
  match findProduct db od.product_id with
  | none =>
      ⟨db, .error .productNotFound, []⟩
  | some product =>
      if product.stock < (od.quantity : Int) then
        ⟨db, .error .insufficientStock, []⟩
      else if commitFault then
        ⟨db, .error .insufficientStock, []⟩
      else
        let total_price := product.price * (od.quantity : Rat)
        let order : Order :=
          ⟨db.nextOrderId, od.product_id, od.quantity, total_price, .pending⟩
        ⟨⟨decStock db.products od.product_id od.quantity,
          db.orders ++ [order], db.nextOrderId + 1⟩,
         .ok order,
         [od.product_id]⟩

/-- `OrderService.create_order_optimistic` (`app/services/order_service.py`,
lines 138-202): read the product without a lock, then run the conditional
`UPDATE ... SET stock = stock - :quantity WHERE id = :product_id AND
stock >= :quantity`; `rowcount == 0` raises `InsufficientStockError` after a
rollback.  In serialized execution the pre-read row is still current when
the `UPDATE` runs. -/
def create_order_optimistic (db : DB) (od : OrderCreate) : CreateOutcome :=
  match findProduct db od.product_id with
  | none =>
      ⟨db, .error .productNotFound, []⟩
  | some product =>
      if (od.quantity : Int) ≤ product.stock then
        let order : Order :=
          ⟨db.nextOrderId, od.product_id, od.quantity,
           product.price * (od.quantity : Rat), .pending⟩
        ⟨⟨decStock db.products od.product_id od.quantity,
          db.orders ++ [order], db.nextOrderId + 1⟩,
         .ok order,
         [od.product_id]⟩
      else
        ⟨db, .error .insufficientStock, []⟩

/-- The dictionary returned by the Celery task `process_order`: either the
order-not-found failure value or the success value naming the order. -/
inductive TaskResult where
  | orderNotFound
  | processed (order_id : Nat)
deriving DecidableEq, Repr

/-- Result of one `process_order` delivery: the database after the call, the
returned value (`none` when the except branch re-raises through
`self.retry`), the sequence of status values committed for the order, and
whether a retry was scheduled. -/
structure ProcessOutcome where
  db : DB
  result : Option TaskResult
  statusWrites : List OrderStatus
  retryScheduled : Bool
deriving DecidableEq, Repr

/-- Set the status of order `oid` and commit (`order.status = ...;
db.commit()`). -/
def setStatus (db : DB) (oid : Nat) (s : OrderStatus) : DB :=
  { db with
    orders := db.orders.map (fun o => if o.id == oid then { o with status := s } else o) }

/-- Celery task `process_order` (`app/tasks/order_tasks.py`, lines 12-82).
If the order does not exist the task returns the failure dictionary without
mutating anything and without retrying.  Otherwise it unconditionally writes
`PROCESSING` and commits, then runs the simulated external call;
`externalOk` tells whether that call returns normally.  On success it writes
`COMPLETED` and returns the success dictionary; on an exception the except
branch writes `FAILED`, commits, and re-raises through
`self.retry(countdown=60, max_retries=3)`. -/
def process_order (db : DB) (order_id : Nat) (externalOk : Bool) : ProcessOutcome :=
  match findOrder db order_id with
  | none =>
      ⟨db, some .orderNotFound, [], false⟩
  | some _ =>
      let db1 := setStatus db order_id .processing
      if externalOk then
        let db2 := setStatus db1 order_id .completed
        ⟨db2, some (.processed order_id), [.processing, .completed], false⟩
      else
        let db2 := setStatus db1 order_id .failed
        ⟨db2, none, [.processing, .failed], true⟩

/-- The base query of `OrderService.get_orders`: all orders, optionally
filtered by status (`query.filter(Order.status == status)`). -/
def ordersQuery (db : DB) (status : Option OrderStatus) : List Order :=
  match status with
  | none => db.orders
  | some s => db.orders.filter (fun o => o.status == s)

/-- Insert an order into a list sorted by descending id. -/
def insertDescById (o : Order) : List Order → List Order
  | [] => [o]
  | x :: xs => if x.id ≤ o.id then o :: x :: xs else x :: insertDescById o xs

/-- Sort orders by descending id (`query.order_by(Order.id.desc())`). -/
def sortDescById : List Order → List Order
  | [] => []
  | x :: xs => insertDescById x (sortDescById xs)

/-- `OrderService.get_orders` (`app/services/order_service.py`,
lines 208-236): count the filtered query, set
`total_pages = ceil(total / page_size)` when `total > 0` and 1 otherwise,
then return the page `OFFSET (page-1)*page_size LIMIT page_size` of the
query ordered by descending id, as `(orders, total, total_pages)`. -/
def get_orders (db : DB) (page : Nat) (page_size : Nat)
    (status : Option OrderStatus) : List Order × Nat × Nat :=
  let q := ordersQuery db status
  let total := q.length
  let total_pages := if 0 < total then (total + page_size - 1) / page_size else 1
  let offset := (page - 1) * page_size
  let items := ((sortDescById q).drop offset).take page_size
  (items, total, total_pages)

/-- Run a list of `create_order` calls in the serialized order in which the
row locks are granted; each call carries its commit-fault flag.  Returns the
final database and the list of results. -/
def runOrders (db : DB) : List (OrderCreate × Bool) → DB × List (Except OrderError Order)
  | [] => (db, [])
  | c :: cs =>
      let out := create_order db c.1 c.2
      let rest := runOrders out.db cs
      (rest.1, out.result :: rest.2)

/-- Sum of the quantities of the successful reservations among a list of
`create_order` results. -/
def successQty : List (Except OrderError Order) → Nat
  | [] => 0
  | .ok o :: rs => o.quantity + successQty rs
  | .error _ :: rs => successQty rs

/-- Number of successful results. -/
def countOk : List (Except OrderError Order) → Nat
  | [] => 0
  | .ok _ :: rs => 1 + countOk rs
  | .error _ :: rs => countOk rs

/-- Number of results that failed with `InsufficientStockError`. -/
def countInsufficient : List (Except OrderError Order) → Nat
  | [] => 0
  | .ok _ :: rs => countInsufficient rs
  | .error e :: rs => (if e = .insufficientStock then 1 else 0) + countInsufficient rs

/-- The `Order` row inserted by a successful reservation (lines 107-112 of
`order_service.py`): status `PENDING`, the requested quantity, and
`total_price = price * quantity`. -/
def reservedOrder (db : DB) (od : OrderCreate) (p : Product) : Order :=
  ⟨db.nextOrderId, od.product_id, od.quantity, p.price * (od.quantity : Rat), .pending⟩

theorem find?_map_eq (ps : List Product) (f : Product → Product)
    (hf : ∀ p, (f p).id = p.id) (pid : Nat) :
    (ps.map f).find? (fun p => p.id == pid)
      = (ps.find? (fun p => p.id == pid)).map f := by
  induction ps with
  | nil => rfl
  | cons x xs ih =>
    by_cases h : x.id = pid
    · have h1 : ((f x).id == pid) = true := by simp [hf, h]
      have h2 : (x.id == pid) = true := by simp [h]
      simp [List.find?_cons, h1, h2]
    · have h1 : ((f x).id == pid) = false := by simp [hf, h]
      have h2 : (x.id == pid) = false := by simp [h]
      simp [List.find?_cons, h1, h2, ih]

theorem findProduct_decStock (db : DB) (orders : List Order) (nid pid q pid2 : Nat) :
    findProduct ⟨decStock db.products pid q, orders, nid⟩ pid2
      = (findProduct db pid2).map
          (fun p => if p.id == pid then { p with stock := p.stock - (q : Int) } else p) := by
  unfold findProduct decStock
  exact find?_map_eq _ _ (fun p => by by_cases h : (p.id == pid) <;> simp [h]) pid2

theorem stockOf_decStock_self (db : DB) (orders : List Order) (nid pid q : Nat)
    (p : Product) (hp : findProduct db pid = some p) :
    stockOf ⟨decStock db.products pid q, orders, nid⟩ pid = p.stock - (q : Int) := by
  have hp2 : db.products.find? (fun x : Product => x.id == pid) = some p := hp
  have hid0 := List.find?_some hp2
  have hid : p.id = pid := by simpa using hid0
  unfold stockOf
  rw [findProduct_decStock, hp]
  simp [hid]

theorem stockOf_decStock_ne (db : DB) (orders : List Order) (nid pid q pid2 : Nat)
    (h : pid2 ≠ pid) :
    stockOf ⟨decStock db.products pid q, orders, nid⟩ pid2 = stockOf db pid2 := by
  unfold stockOf
  rw [findProduct_decStock]
  cases hf : findProduct db pid2 with
  | none => simp
  | some p2 =>
    have hf2 : db.products.find? (fun x : Product => x.id == pid2) = some p2 := hf
    have h20 := List.find?_some hf2
    have h2 : p2.id = pid2 := by simpa using h20
    simp [h2, h]

theorem create_order_notFound (db : DB) (od : OrderCreate) (f : Bool)
    (hp : findProduct db od.product_id = none) :
    create_order db od f = ⟨db, .error .productNotFound, []⟩ := by
  simp [create_order, hp]

theorem create_order_insufficient (db : DB) (od : OrderCreate) (f : Bool) (p : Product)
    (hp : findProduct db od.product_id = some p) (hs : p.stock < (od.quantity : Int)) :
    create_order db od f = ⟨db, .error .insufficientStock, []⟩ := by
  simp [create_order, hp, hs]

theorem create_order_fault (db : DB) (od : OrderCreate) (p : Product)
    (hp : findProduct db od.product_id = some p) (hs : (od.quantity : Int) ≤ p.stock) :
    create_order db od true = ⟨db, .error .insufficientStock, []⟩ := by
  simp [create_order, hp, not_lt.mpr hs]

theorem create_order_success (db : DB) (od : OrderCreate) (p : Product)
    (hp : findProduct db od.product_id = some p) (hs : (od.quantity : Int) ≤ p.stock) :
    create_order db od false
      = ⟨⟨decStock db.products od.product_id od.quantity,
          db.orders ++ [reservedOrder db od p], db.nextOrderId + 1⟩,
         .ok (reservedOrder db od p), [od.product_id]⟩ := by
  simp [create_order, hp, not_lt.mpr hs, reservedOrder]

theorem create_order_rollback (db : DB) (od : OrderCreate) (f : Bool) (e : OrderError)
    (he : (create_order db od f).result = .error e) :
    (create_order db od f).db = db ∧ (create_order db od f).cacheInvalidations = [] := by
  cases hp : findProduct db od.product_id with
  | none => rw [create_order_notFound db od f hp]; exact ⟨rfl, rfl⟩
  | some p =>
    by_cases hs : p.stock < (od.quantity : Int)
    · rw [create_order_insufficient db od f p hp hs]; exact ⟨rfl, rfl⟩
    · cases f with
      | true => rw [create_order_fault db od p hp (not_lt.mp hs)]; exact ⟨rfl, rfl⟩
      | false =>
        rw [create_order_success db od p hp (not_lt.mp hs)] at he
        exact absurd he (by simp)

theorem findProduct_id (db : DB) (pid : Nat) (p : Product)
    (hp : findProduct db pid = some p) : p.id = pid := by
  have hp2 : db.products.find? (fun x : Product => x.id == pid) = some p := hp
  have h0 := List.find?_some hp2
  simpa using h0

theorem findProduct_after_success (db : DB) (od : OrderCreate) (p : Product)
    (hp : findProduct db od.product_id = some p) (orders : List Order) (nid : Nat) :
    findProduct ⟨decStock db.products od.product_id od.quantity, orders, nid⟩ od.product_id
      = some { p with stock := p.stock - (od.quantity : Int) } := by
  rw [findProduct_decStock, hp]
  simp [findProduct_id db od.product_id p hp]

theorem create_order_cases (db : DB) (od : OrderCreate) (f : Bool) :
    (∃ e, create_order db od f = ⟨db, .error e, []⟩)
    ∨ (∃ p, findProduct db od.product_id = some p ∧ (od.quantity : Int) ≤ p.stock ∧
        create_order db od f
          = ⟨⟨decStock db.products od.product_id od.quantity,
              db.orders ++ [reservedOrder db od p], db.nextOrderId + 1⟩,
             .ok (reservedOrder db od p), [od.product_id]⟩) := by
  cases hq : findProduct db od.product_id with
  | none => exact .inl ⟨_, create_order_notFound db od f hq⟩
  | some p =>
    by_cases hs : p.stock < (od.quantity : Int)
    · exact .inl ⟨_, create_order_insufficient db od f p hq hs⟩
    · cases f with
      | true => exact .inl ⟨_, create_order_fault db od p hq (not_lt.mp hs)⟩
      | false => exact .inr ⟨p, rfl, not_lt.mp hs, create_order_success db od p hq (not_lt.mp hs)⟩

theorem runOrders_nil (db : DB) : runOrders db [] = (db, []) := rfl

theorem runOrders_cons (db : DB) (c : OrderCreate × Bool) (cs : List (OrderCreate × Bool)) :
    runOrders db (c :: cs)
      = ((runOrders (create_order db c.1 c.2).db cs).1,
         (create_order db c.1 c.2).result :: (runOrders (create_order db c.1 c.2).db cs).2) :=
  rfl

theorem runOrders_stock (pid : Nat) (reqs : List (OrderCreate × Bool)) :
    ∀ (db : DB), (∀ c ∈ reqs, c.1.product_id = pid) → 0 ≤ stockOf db pid →
      stockOf (runOrders db reqs).1 pid
        = stockOf db pid - (successQty (runOrders db reqs).2 : Int)
      ∧ ∀ n, 0 ≤ stockOf (runOrders db (reqs.take n)).1 pid := by
  induction reqs with
  | nil =>
    intro db _ h0
    refine ⟨by simp [runOrders_nil, successQty], ?_⟩
    intro n
    simpa [runOrders_nil] using h0
  | cons c cs ih =>
    intro db hmem h0
    have hcpid : c.1.product_id = pid := hmem c (List.mem_cons_self c cs)
    have hmem2 : ∀ x ∈ cs, x.1.product_id = pid := fun x hx => hmem x (List.mem_cons_of_mem c hx)
    rcases create_order_cases db c.1 c.2 with ⟨e, heq⟩ | ⟨p, hp, hle, heq⟩
    · have hdbeq : (create_order db c.1 c.2).db = db := by rw [heq]
      have ihx := ih db hmem2 h0
      constructor
      · rw [runOrders_cons, hdbeq]
        have hres : (create_order db c.1 c.2).result = .error e := by rw [heq]
        rw [hres]
        simpa [successQty] using ihx.1
      · intro n
        cases n with
        | zero => simpa [runOrders_nil] using h0
        | succ m =>
          rw [List.take_succ_cons, runOrders_cons, hdbeq]
          exact ihx.2 m
    · have hppid : findProduct db pid = some p := by rw [← hcpid]; exact hp
      have hstock : stockOf db pid = p.stock := by unfold stockOf; rw [hppid]
      have hs1 : stockOf (create_order db c.1 c.2).db pid = p.stock - (c.1.quantity : Int) := by
        rw [heq, hcpid]
        exact stockOf_decStock_self db _ _ pid c.1.quantity p hppid
      have h0n : 0 ≤ stockOf (create_order db c.1 c.2).db pid := by
        rw [hs1]; omega
      have ihx := ih (create_order db c.1 c.2).db hmem2 h0n
      constructor
      · rw [runOrders_cons]
        have hres : (create_order db c.1 c.2).result = .ok (reservedOrder db c.1 p) := by
          rw [heq]
        rw [hres]
        simp only [successQty, reservedOrder]
        rw [ihx.1, hs1, hstock]
        push_cast
        ring
      · intro n
        cases n with
        | zero => simpa [runOrders_nil] using h0
        | succ m =>
          rw [List.take_succ_cons, runOrders_cons]
          exact ihx.2 m

theorem runOrders_length (db : DB) (reqs : List (OrderCreate × Bool)) :
    (runOrders db reqs).2.length = reqs.length := by
  induction reqs generalizing db with
  | nil => rfl
  | cons c cs ih => simp [runOrders_cons, ih]

theorem runOrders_cons2 (db : DB) (od : OrderCreate) (f : Bool)
    (cs : List (OrderCreate × Bool)) :
    runOrders db ((od, f) :: cs)
      = ((runOrders (create_order db od f).db cs).1,
         (create_order db od f).result :: (runOrders (create_order db od f).db cs).2) :=
  rfl

theorem runOrders_unit (pid : Nat) :
    ∀ (K : Nat) (db : DB) (N : Nat) (p : Product),
      findProduct db pid = some p → p.stock = (N : Int) →
      countOk (runOrders db (List.replicate K ((⟨pid, 1⟩ : OrderCreate), false))).2 = min K N
      ∧ countInsufficient
          (runOrders db (List.replicate K ((⟨pid, 1⟩ : OrderCreate), false))).2
          = K - min K N := by
  intro K
  induction K with
  | zero =>
    intro db N p hp hs
    simp [runOrders_nil, countOk, countInsufficient]
  | succ K ih =>
    intro db N p hp hs
    rw [List.replicate_succ]
    cases N with
    | zero =>
      have hlt : p.stock < ((1 : Nat) : Int) := by rw [hs]; simp
      have heq : create_order db ⟨pid, 1⟩ false = ⟨db, .error .insufficientStock, []⟩ :=
        create_order_insufficient db ⟨pid, 1⟩ false p hp hlt
      have ihx := ih db 0 p hp hs
      rw [runOrders_cons2, heq]
      dsimp only
      constructor
      · simp only [countOk]
        rw [ihx.1]
        omega
      · simp only [countInsufficient]
        rw [ihx.2]
        simp
        omega
    | succ M =>
      have hle : ((1 : Nat) : Int) ≤ p.stock := by rw [hs]; push_cast; omega
      have heq : create_order db ⟨pid, 1⟩ false
          = ⟨⟨decStock db.products pid 1,
              db.orders ++ [reservedOrder db ⟨pid, 1⟩ p], db.nextOrderId + 1⟩,
             .ok (reservedOrder db ⟨pid, 1⟩ p), [pid]⟩ :=
        create_order_success db ⟨pid, 1⟩ p hp hle
      have hp2 : findProduct (create_order db ⟨pid, 1⟩ false).db pid
          = some { p with stock := p.stock - ((1 : Nat) : Int) } := by
        rw [heq]
        exact findProduct_after_success db ⟨pid, 1⟩ p hp _ _
      have hs2 : ({ p with stock := p.stock - ((1 : Nat) : Int) } : Product).stock
          = ((M : Nat) : Int) := by
        dsimp only
        rw [hs]
        push_cast
        ring
      have ihx := ih (create_order db ⟨pid, 1⟩ false).db M _ hp2 hs2
      rw [runOrders_cons2]
      have hres : (create_order db ⟨pid, 1⟩ false).result
          = .ok (reservedOrder db ⟨pid, 1⟩ p) := by
        rw [heq]
      rw [hres]
      constructor
      · simp only [countOk]
        rw [ihx.1]
        omega
      · simp only [countInsufficient]
        rw [ihx.2]
        omega

/-- Claim C1: for every serialized sequence of reservation calls
(`create_order`) against one product, each call possibly hit by a
commit-time constraint violation, the final stock equals the initial stock
minus the sum of the quantities of the successful reservations, and the
stock is non-negative after every call. -/
theorem claim1_stock_accounting (db : DB) (pid : Nat) (reqs : List (OrderCreate × Bool))
    (hpid : ∀ c ∈ reqs, c.1.product_id = pid) (h0 : 0 ≤ stockOf db pid) :
    stockOf (runOrders db reqs).1 pid
      = stockOf db pid - (successQty (runOrders db reqs).2 : Int)
    ∧ ∀ n, 0 ≤ stockOf (runOrders db (reqs.take n)).1 pid :=
  runOrders_stock pid reqs db hpid h0

theorem claim1_stock_accounting_witness :
    stockOf (runOrders ⟨[⟨1, "w", 100, 10⟩], [], 1⟩ [(⟨1, 6⟩, false), (⟨1, 6⟩, false)]).1 1
      = stockOf ⟨[⟨1, "w", 100, 10⟩], [], 1⟩ 1
        - (successQty
            (runOrders ⟨[⟨1, "w", 100, 10⟩], [], 1⟩
              [(⟨1, 6⟩, false), (⟨1, 6⟩, false)]).2 : Int)
    ∧ ∀ n, 0 ≤ stockOf (runOrders ⟨[⟨1, "w", 100, 10⟩], [], 1⟩
        ([(⟨1, 6⟩, false), (⟨1, 6⟩, false)].take n)).1 1 :=
  claim1_stock_accounting ⟨[⟨1, "w", 100, 10⟩], [], 1⟩ 1
    [(⟨1, 6⟩, false), (⟨1, 6⟩, false)] (by decide) (by decide)

/-- Claim C2: with stock `N` and `K > N` serialized unit-quantity requests,
exactly `N` of the `create_order` calls succeed and `K − N` fail with
`InsufficientStock`; concretely, with stock 10 and two requests of
quantity 6, exactly one succeeds (stock becomes 4) and the other fails with
`InsufficientStock`, leaving the stock unchanged at 4. -/
theorem claim2_at_most_fulfillment :
    (∀ (db : DB) (pid N K : Nat) (p : Product),
      findProduct db pid = some p → p.stock = (N : Int) → N < K →
      countOk (runOrders db (List.replicate K ((⟨pid, 1⟩ : OrderCreate), false))).2 = N
      ∧ countInsufficient
          (runOrders db (List.replicate K ((⟨pid, 1⟩ : OrderCreate), false))).2 = K - N
      ∧ (runOrders db (List.replicate K ((⟨pid, 1⟩ : OrderCreate), false))).2.length = K)
    ∧ (countOk (runOrders ⟨[⟨1, "w", 100, 10⟩], [], 1⟩
          [(⟨1, 6⟩, false), (⟨1, 6⟩, false)]).2 = 1
      ∧ (runOrders ⟨[⟨1, "w", 100, 10⟩], [], 1⟩
          [(⟨1, 6⟩, false), (⟨1, 6⟩, false)]).2.map (Except.map Order.status)
          = [.ok .pending, .error .insufficientStock]
      ∧ stockOf (runOrders ⟨[⟨1, "w", 100, 10⟩], [], 1⟩ [(⟨1, 6⟩, false)]).1 1 = 4
      ∧ stockOf (runOrders ⟨[⟨1, "w", 100, 10⟩], [], 1⟩
          [(⟨1, 6⟩, false), (⟨1, 6⟩, false)]).1 1 = 4) := by
  constructor
  · intro db pid N K p hp hs hNK
    have h := runOrders_unit pid K db N p hp hs
    have hmin : min K N = N := by omega
    rw [hmin] at h
    exact ⟨h.1, h.2, by rw [runOrders_length]; simp⟩
  · exact ⟨by decide, by decide, by decide, by decide⟩

theorem claim2_at_most_fulfillment_witness :
    countOk (runOrders ⟨[⟨1, "w", 100, 3⟩], [], 1⟩
        (List.replicate 5 ((⟨1, 1⟩ : OrderCreate), false))).2 = 3
    ∧ countInsufficient (runOrders ⟨[⟨1, "w", 100, 3⟩], [], 1⟩
        (List.replicate 5 ((⟨1, 1⟩ : OrderCreate), false))).2 = 2
    ∧ (runOrders ⟨[⟨1, "w", 100, 3⟩], [], 1⟩
        (List.replicate 5 ((⟨1, 1⟩ : OrderCreate), false))).2.length = 5 :=
  claim2_at_most_fulfillment.1 ⟨[⟨1, "w", 100, 3⟩], [], 1⟩ 1 3 5 ⟨1, "w", 100, 3⟩
    (by decide) (by decide) (by decide)

/-- Claim C3: a `create_order` call on an existing product with sufficient
stock succeeds, decrements the stock by exactly the quantity, appends
exactly one `PENDING` order with the requested quantity and
`total_price = price * quantity`, and emits exactly one cache invalidation
for that product; and no failure path mutates the database or emits a cache
invalidation. -/
theorem claim3_success_effects :
    (∀ (db : DB) (od : OrderCreate) (p : Product),
      findProduct db od.product_id = some p → 1 ≤ od.quantity →
      (od.quantity : Int) ≤ p.stock →
      ∃ o, (create_order db od false).result = .ok o
        ∧ o.status = .pending
        ∧ o.quantity = od.quantity
        ∧ o.total_price = p.price * (od.quantity : Rat)
        ∧ (create_order db od false).db.orders = db.orders ++ [o]
        ∧ stockOf (create_order db od false).db od.product_id
            = stockOf db od.product_id - (od.quantity : Int)
        ∧ (create_order db od false).cacheInvalidations = [od.product_id])
    ∧ (∀ (db : DB) (od : OrderCreate) (f : Bool) (e : OrderError),
      (create_order db od f).result = .error e →
      (create_order db od f).db = db ∧ (create_order db od f).cacheInvalidations = []) := by
  constructor
  · intro db od p hp hq1 hle
    have hst : stockOf db od.product_id = p.stock := by unfold stockOf; rw [hp]
    rw [create_order_success db od p hp hle]
    refine ⟨reservedOrder db od p, rfl, rfl, rfl, rfl, rfl, ?_, rfl⟩
    rw [hst]
    exact stockOf_decStock_self db (db.orders ++ [reservedOrder db od p])
      (db.nextOrderId + 1) od.product_id od.quantity p hp
  · intro db od f e he
    exact create_order_rollback db od f e he

theorem claim3_success_effects_witness :
    (∃ o, (create_order ⟨[⟨1, "w", 100, 10⟩], [], 1⟩ ⟨1, 6⟩ false).result = .ok o
      ∧ o.status = .pending
      ∧ o.quantity = (⟨1, 6⟩ : OrderCreate).quantity
      ∧ o.total_price = (⟨1, "w", 100, 10⟩ : Product).price * ((⟨1, 6⟩ : OrderCreate).quantity : Rat)
      ∧ (create_order ⟨[⟨1, "w", 100, 10⟩], [], 1⟩ ⟨1, 6⟩ false).db.orders = [] ++ [o]
      ∧ stockOf (create_order ⟨[⟨1, "w", 100, 10⟩], [], 1⟩ ⟨1, 6⟩ false).db 1
          = stockOf ⟨[⟨1, "w", 100, 10⟩], [], 1⟩ 1 - ((⟨1, 6⟩ : OrderCreate).quantity : Int)
      ∧ (create_order ⟨[⟨1, "w", 100, 10⟩], [], 1⟩ ⟨1, 6⟩ false).cacheInvalidations = [1])
    ∧ ((create_order ⟨[], [], 1⟩ ⟨1, 1⟩ false).db = ⟨[], [], 1⟩
      ∧ (create_order ⟨[], [], 1⟩ ⟨1, 1⟩ false).cacheInvalidations = []) :=
  ⟨claim3_success_effects.1 ⟨[⟨1, "w", 100, 10⟩], [], 1⟩ ⟨1, 6⟩ ⟨1, "w", 100, 10⟩
     (by decide) (by decide) (by decide),
   claim3_success_effects.2 ⟨[], [], 1⟩ ⟨1, 1⟩ false .productNotFound (by decide)⟩

/-- Claim C4: `create_order` fails with `ProductNotFound` iff the product
does not exist; it fails with `InsufficientStock` whenever the product
exists but its stock is below the requested quantity; a constraint
violation raised at commit (`IntegrityError`) is also surfaced as
`InsufficientStock`; and on every failure path the database is unchanged
(no order inserted, stock untouched) and no cache invalidation happens. -/
theorem claim4_failure_taxonomy (db : DB) (od : OrderCreate) (f : Bool) :
    ((create_order db od f).result = .error .productNotFound
        ↔ findProduct db od.product_id = none)
    ∧ (∀ p, findProduct db od.product_id = some p → p.stock < (od.quantity : Int) →
        (create_order db od f).result = .error .insufficientStock)
    ∧ (∀ p, findProduct db od.product_id = some p → (od.quantity : Int) ≤ p.stock →
        f = true → (create_order db od f).result = .error .insufficientStock)
    ∧ (∀ e, (create_order db od f).result = .error e →
        (create_order db od f).db = db
        ∧ (create_order db od f).db.orders = db.orders
        ∧ stockOf (create_order db od f).db od.product_id = stockOf db od.product_id
        ∧ (create_order db od f).cacheInvalidations = []) := by
  refine ⟨⟨?_, ?_⟩, ?_, ?_, ?_⟩
  · intro he
    cases hq : findProduct db od.product_id with
    | none => rfl
    | some p =>
      exfalso
      by_cases hs : p.stock < (od.quantity : Int)
      · rw [create_order_insufficient db od f p hq hs] at he
        simp at he
      · cases f with
        | true =>
          rw [create_order_fault db od p hq (not_lt.mp hs)] at he
          simp at he
        | false =>
          rw [create_order_success db od p hq (not_lt.mp hs)] at he
          simp at he
  · intro hq
    rw [create_order_notFound db od f hq]
  · intro p hp hs
    rw [create_order_insufficient db od f p hp hs]
  · intro p hp hle hf
    subst hf
    rw [create_order_fault db od p hp hle]
  · intro e he
    have h := create_order_rollback db od f e he
    exact ⟨h.1, by rw [h.1], by rw [h.1], h.2⟩

theorem claim4_failure_taxonomy_witness :
    (create_order ⟨[], [], 1⟩ ⟨1, 1⟩ false).result = .error .productNotFound
    ∧ (create_order ⟨[⟨1, "w", 100, 0⟩], [], 1⟩ ⟨1, 1⟩ false).result
        = .error .insufficientStock
    ∧ (create_order ⟨[⟨2, "w", 100, 9⟩], [], 1⟩ ⟨2, 4⟩ true).result
        = .error .insufficientStock
    ∧ (create_order ⟨[], [], 1⟩ ⟨1, 1⟩ false).db = ⟨[], [], 1⟩ :=
  ⟨(claim4_failure_taxonomy ⟨[], [], 1⟩ ⟨1, 1⟩ false).1.mpr rfl,
   (claim4_failure_taxonomy ⟨[⟨1, "w", 100, 0⟩], [], 1⟩ ⟨1, 1⟩ false).2.1
     ⟨1, "w", 100, 0⟩ (by decide) (by decide),
   (claim4_failure_taxonomy ⟨[⟨2, "w", 100, 9⟩], [], 1⟩ ⟨2, 4⟩ true).2.2.1
     ⟨2, "w", 100, 9⟩ (by decide) (by decide) rfl,
   ((claim4_failure_taxonomy ⟨[], [], 1⟩ ⟨1, 1⟩ false).2.2.2 .productNotFound
     ((claim4_failure_taxonomy ⟨[], [], 1⟩ ⟨1, 1⟩ false).1.mpr rfl)).1⟩

/-- Claim C7: in serialized execution the row-lock policy (`create_order`
without a commit fault) and the conditional-update policy
(`create_order_optimistic`) produce identical outcomes — same database,
same returned order or same error kind, same cache invalidations — and both
preserve the non-negative-stock invariant. -/
theorem claim7_policy_equivalence :
    (∀ (db : DB) (od : OrderCreate),
      create_order db od false = create_order_optimistic db od)
    ∧ (∀ (db : DB) (od : OrderCreate) (f : Bool) (pid : Nat),
      0 ≤ stockOf db pid → 0 ≤ stockOf (create_order db od f).db pid)
    ∧ (∀ (db : DB) (od : OrderCreate) (pid : Nat),
      0 ≤ stockOf db pid → 0 ≤ stockOf (create_order_optimistic db od).db pid) := by
  have hequiv : ∀ (db : DB) (od : OrderCreate),
      create_order db od false = create_order_optimistic db od := by
    intro db od
    cases hq : findProduct db od.product_id with
    | none =>
      rw [create_order_notFound db od false hq]
      simp [create_order_optimistic, hq]
    | some p =>
      by_cases hs : p.stock < (od.quantity : Int)
      · rw [create_order_insufficient db od false p hq hs]
        simp [create_order_optimistic, hq, not_le.mpr hs]
      · rw [create_order_success db od p hq (not_lt.mp hs)]
        simp [create_order_optimistic, hq, not_lt.mp hs, reservedOrder]
  have hinv : ∀ (db : DB) (od : OrderCreate) (f : Bool) (pid : Nat),
      0 ≤ stockOf db pid → 0 ≤ stockOf (create_order db od f).db pid := by
    intro db od f pid h0
    rcases create_order_cases db od f with ⟨e, heq⟩ | ⟨p, hp, hle, heq⟩
    · rw [heq]; exact h0
    · rw [heq]
      by_cases hpid : pid = od.product_id
      · subst hpid
        dsimp only
        rw [stockOf_decStock_self db (db.orders ++ [reservedOrder db od p])
          (db.nextOrderId + 1) od.product_id od.quantity p hp]
        omega
      · dsimp only
        rw [stockOf_decStock_ne db (db.orders ++ [reservedOrder db od p])
          (db.nextOrderId + 1) od.product_id od.quantity pid hpid]
        exact h0
  exact ⟨hequiv, hinv,
    fun db od pid h0 => by rw [← hequiv db od]; exact hinv db od false pid h0⟩

theorem claim7_policy_equivalence_witness :
    create_order ⟨[⟨1, "w", 100, 10⟩], [], 1⟩ ⟨1, 6⟩ false
      = create_order_optimistic ⟨[⟨1, "w", 100, 10⟩], [], 1⟩ ⟨1, 6⟩
    ∧ 0 ≤ stockOf (create_order ⟨[⟨1, "w", 100, 10⟩], [], 1⟩ ⟨1, 6⟩ false).db 1
    ∧ 0 ≤ stockOf (create_order_optimistic ⟨[⟨1, "w", 100, 10⟩], [], 1⟩ ⟨1, 6⟩).db 1 :=
  ⟨claim7_policy_equivalence.1 ⟨[⟨1, "w", 100, 10⟩], [], 1⟩ ⟨1, 6⟩,
   claim7_policy_equivalence.2.1 ⟨[⟨1, "w", 100, 10⟩], [], 1⟩ ⟨1, 6⟩ false 1 (by decide),
   claim7_policy_equivalence.2.2 ⟨[⟨1, "w", 100, 10⟩], [], 1⟩ ⟨1, 6⟩ 1 (by decide)⟩

/-- Claim C5 is violated by the code: `process_order` writes `PROCESSING`
unconditionally on pickup, with no monotonic status check, so redelivering
the task for an order already in the terminal status `COMPLETED` first
commits a `COMPLETED → PROCESSING` regression — a status write outside the
documented transition diagram. -/
theorem claim5_redelivery_regression :
    (findOrder ⟨[], [⟨1, 1, 2, 20, .completed⟩], 2⟩ 1).map Order.status
      = some .completed
    ∧ (process_order ⟨[], [⟨1, 1, 2, 20, .completed⟩], 2⟩ 1 true).statusWrites.head?
      = some .processing
    ∧ (findOrder (setStatus ⟨[], [⟨1, 1, 2, 20, .completed⟩], 2⟩ 1 .processing) 1).map
        Order.status = some .processing :=
  ⟨by decide, by decide, by decide⟩

/-- Claim C6: `process_order` never touches the products table — for every
database, order id and external-call outcome, the stock of every product is
identical before and after the call; concretely (Scenario B), after a
quantity-3 reservation against stock 5 leaves stock 2, a completed
`process_order` run sets the order's status to `COMPLETED` while the stock
stays 2. -/
theorem claim6_processor_frame :
    (∀ (db : DB) (oid : Nat) (ok : Bool), (process_order db oid ok).db.products = db.products)
    ∧ (stockOf (create_order ⟨[⟨1, "w", 10, 5⟩], [], 1⟩ ⟨1, 3⟩ false).db 1 = 2
      ∧ (create_order ⟨[⟨1, "w", 10, 5⟩], [], 1⟩ ⟨1, 3⟩ false).result.map Order.status
          = .ok .pending
      ∧ (findOrder (process_order
            (create_order ⟨[⟨1, "w", 10, 5⟩], [], 1⟩ ⟨1, 3⟩ false).db 1 true).db 1).map
          Order.status = some .completed
      ∧ stockOf (process_order
            (create_order ⟨[⟨1, "w", 10, 5⟩], [], 1⟩ ⟨1, 3⟩ false).db 1 true).db 1 = 2) := by
  constructor
  · intro db oid ok
    cases h : findOrder db oid with
    | none => simp [process_order, h]
    | some o =>
      cases ok with
      | true => simp [process_order, h, setStatus]
      | false => simp [process_order, h, setStatus]
  · exact ⟨by decide, by decide, by decide, by decide⟩

theorem length_insertDescById (o : Order) (l : List Order) :
    (insertDescById o l).length = l.length + 1 := by
  induction l with
  | nil => rfl
  | cons x xs ih =>
    by_cases h : x.id ≤ o.id <;> simp [insertDescById, h, ih]

theorem length_sortDescById (l : List Order) :
    (sortDescById l).length = l.length := by
  induction l with
  | nil => rfl
  | cons x xs ih => simp [sortDescById, length_insertDescById, ih]

/-- Claim C8: `get_orders` returns exactly
`min(page_size, total − (page−1)·page_size)` items (truncated subtraction)
together with the exact total count; with 15 orders, page 1 and page size 10
yield 10 items, total 15 and 2 total pages. -/
theorem claim8_pagination :
    (∀ (db : DB) (page page_size : Nat), 1 ≤ page → 1 ≤ page_size →
      (get_orders db page page_size none).1.length
        = min page_size (db.orders.length - (page - 1) * page_size)
      ∧ (get_orders db page page_size none).2.1 = db.orders.length)
    ∧ (∀ db : DB, db.orders.length = 15 →
      (get_orders db 1 10 none).1.length = 10
      ∧ (get_orders db 1 10 none).2.1 = 15
      ∧ (get_orders db 1 10 none).2.2 = 2) := by
  constructor
  · intro db page page_size hp hps
    refine ⟨?_, ?_⟩
    · simp [get_orders, ordersQuery, length_sortDescById]
    · simp [get_orders, ordersQuery]
  · intro db h15
    refine ⟨?_, ?_, ?_⟩
    · simp [get_orders, ordersQuery, length_sortDescById, h15]
    · simp [get_orders, ordersQuery, h15]
    · simp [get_orders, ordersQuery, h15]

/-- A database holding 15 orders, as in Scenario D. -/
def dbFifteen : DB :=
  ⟨[], (List.range 15).map (fun i => ⟨i, 1, 1, 5, .pending⟩), 16⟩

theorem claim8_pagination_witness :
    ((get_orders dbFifteen 2 10 none).1.length
        = min 10 (dbFifteen.orders.length - (2 - 1) * 10)
      ∧ (get_orders dbFifteen 2 10 none).2.1 = dbFifteen.orders.length)
    ∧ ((get_orders dbFifteen 1 10 none).1.length = 10
      ∧ (get_orders dbFifteen 1 10 none).2.1 = 15
      ∧ (get_orders dbFifteen 1 10 none).2.2 = 2) :=
  ⟨claim8_pagination.1 dbFifteen 2 10 (by decide) (by decide),
   claim8_pagination.2 dbFifteen (by decide)⟩

/-- Claim C9: when the (possibly status-filtered) query matches no orders,
`get_orders` returns the empty item list, total 0 and `total_pages = 1`
(not 0), for every page and every `page_size ≥ 1`. -/
theorem claim9_empty_listing (db : DB) (page page_size : Nat) (status : Option OrderStatus)
    (h : (ordersQuery db status).length = 0) (hps : 1 ≤ page_size) :
    get_orders db page page_size status = ([], 0, 1) := by
  have hq : ordersQuery db status = [] := List.length_eq_zero.mp h
  simp [get_orders, hq, sortDescById]

theorem claim9_empty_listing_witness :
    get_orders ⟨[], [], 1⟩ 5 3 none = ([], 0, 1) :=
  claim9_empty_listing ⟨[], [], 1⟩ 5 3 none (by decide) (by decide)

/-- Claim C10: calling `process_order` with an order id that references no
order returns the failure dictionary (status failed, error Order not found)
without raising, leaves the whole database unchanged, performs no status
write and schedules no retry. -/
theorem claim10_missing_order (db : DB) (oid : Nat) (ok : Bool)
    (h : findOrder db oid = none) :
    process_order db oid ok = ⟨db, some .orderNotFound, [], false⟩ := by
  simp [process_order, h]

theorem claim10_missing_order_witness :
    process_order ⟨[], [], 1⟩ 7 true = ⟨⟨[], [], 1⟩, some .orderNotFound, [], false⟩ :=
  claim10_missing_order ⟨[], [], 1⟩ 7 true (by decide)

end Distributed
